import Mathlib

/-!
Verification of the JSON parser/serializer in `src/json-parser-rs/src/main.rs`.

The Rust source is shallowly embedded: Rust `String`/`&str` values are
modelled as `List Char`, the `Parser` struct as a record of the input and a
`Nat` position, fallible functions return `Except ParseError _` paired with
the updated parser state (modelling `&mut self`), and the mutually
recursive grammar procedures are driven by an explicit fuel argument so
that every definition is structural and computes by `rfl`.  The canonical
fuel supplied by the entry point is ample: every recursive step of the
Rust code follows at least one consumed input character, so the
fuel-exhaustion branches below are unreachable from `parse`.
-/

namespace JsonRs

/-- Rust `char::len_utf8`: the number of bytes of the UTF-8 encoding. -/
def utf8Len (c : Char) : Nat :=
  if c.toNat < 0x80 then 1
  else if c.toNat < 0x800 then 2
  else if c.toNat < 0x10000 then 3
  else 4

/-- Rust `char::is_whitespace` (the Unicode White_Space property). -/
def is_whitespace (c : Char) : Bool :=
  let n := c.toNat
  (decide (0x9 ≤ n) && decide (n ≤ 0xD)) || decide (n = 0x20) ||
  decide (n = 0x85) || decide (n = 0xA0) || decide (n = 0x1680) ||
  (decide (0x2000 ≤ n) && decide (n ≤ 0x200A)) || decide (n = 0x2028) ||
  decide (n = 0x2029) || decide (n = 0x202F) || decide (n = 0x205F) ||
  decide (n = 0x3000)

/-- Rust `char::is_alphabetic` (Unicode Alphabetic), modelled on the ASCII
range; the grammar keywords `true`/`false`/`null` it is used for are ASCII. -/
def is_alphabetic (c : Char) : Bool := c.isAlpha

/-- Rust `char::is_digit(16)`. -/
def is_hex_digit (c : Char) : Bool :=
  c.isDigit || ('a' ≤ c && c ≤ 'f') || ('A' ≤ c && c ≤ 'F')

/-- The source enum JsonValue.  Rust stores `Number(f32)` obtained as
`s.parse::<f32>().unwrap()` from the accumulated token text `s`; IEEE
rounding is outside this embedding, so `Number` carries that token text
instead, and `Number s` denotes the `f32` that Rust parses from `s`.
All number-related claims are decided at the token-text level. -/
inductive JsonValue where
  | Null : JsonValue
  | Boolean : Bool → JsonValue
  | Number : List Char → JsonValue
  | String : List Char → JsonValue
  | Array : List JsonValue → JsonValue
  | Object : List (List Char × JsonValue) → JsonValue

/-- The source enum ParseError. -/
inductive ParseError where
  | unexpectedToken : Nat → ParseError
  | unexpectedEndOfInput : ParseError
  | trailingComma : Nat → ParseError
  | maxDepthExceeded : Nat → ParseError
  | leadingZero : Nat → ParseError
deriving DecidableEq

/-- The source struct Parser, holding the input text and a scalar position. -/
structure Parser where
  input : List Char
  position : Nat

/-- The source constant MAX_DEPTH = 20. -/
def MAX_DEPTH : Nat := 20

/-- Rust `peek`: `self.input.chars().nth(self.position)` — the position is
used as a *character index* here. -/
def peek (p : Parser) : Option Char := p.input.get? p.position

/-- Rust `consume`: returns `peek` and advances the position by
`c.len_utf8()` — a *byte length*, unlike the character index `peek` uses. -/
def consume (p : Parser) : Option Char × Parser :=
  match peek p with
  | none => (none, p)
  | some c => (some c, { p with position := p.position + utf8Len c })

/-- The loop of Rust `skip_whitespace`, with explicit fuel. -/
def skip_whitespace : Nat → Parser → Parser
  | 0, p => p
  | n + 1, p =>
    match peek p with
    | some c => if is_whitespace c then skip_whitespace n (consume p).2 else p
    | none => p

/-- Rust `skip_whitespace` at its canonical fuel: the loop consumes one
character per step, so `input.length + 1` steps always suffice. -/
def skip_ws (p : Parser) : Parser := skip_whitespace (p.input.length + 1) p

/-- The `for _ in 0..4` hex-digit loop inside the `\u` escape of
`parse_string`.  Errors use the position *after* consuming the offending
character, as `self.position` does in the source. -/
def consume_hex : Nat → List Char → Parser → Except ParseError (List Char) × Parser
  | 0, acc, p => (.ok acc, p)
  | k + 1, acc, p =>
    match consume p with
    | (some c, p1) =>
      if is_hex_digit c then consume_hex k (acc ++ [c]) p1
      else (.error (.unexpectedToken p1.position), p1)
    | (none, p1) => (.error .unexpectedEndOfInput, p1)

/-- Value of one hexadecimal digit, as used by `u32::from_str_radix(_, 16)`. -/
def hex_val (c : Char) : Nat :=
  if c.isDigit then c.toNat - '0'.toNat
  else if 'a' ≤ c && c ≤ 'f' then c.toNat - 'a'.toNat + 10
  else if 'A' ≤ c && c ≤ 'F' then c.toNat - 'A'.toNat + 10
  else 0

/-- Rust u32 from_str_radix base 16 on the four accumulated hex digits. -/
def hex_nat (l : List Char) : Nat := l.foldl (fun a c => a * 16 + hex_val c) 0

/-- The accumulation loop of Rust `parse_string`, with explicit fuel.  Each
iteration starts with a successful `consume`, so fuel `input.length + 1`
never runs out (the exhaustion branch is unreachable from `parse`). -/
def parse_string_loop : Nat → List Char → Parser → Except ParseError (List Char) × Parser
  | 0, _, p => (.error .unexpectedEndOfInput, p)
  | n + 1, acc, p =>
    match consume p with
    | (none, p1) => (.error .unexpectedEndOfInput, p1)
    | (some c, p1) =>
      if c = '"' then (.ok acc, p1)
      else if c = '\t' ∨ c = '\n' ∨ c = '\r' then
        (.error (.unexpectedToken p1.position), p1)
      else if c = '\\' then
        match consume p1 with
        | (none, p2) => (.error .unexpectedEndOfInput, p2)
        | (some e, p2) =>
          if e = '"' then parse_string_loop n (acc ++ ['"']) p2
          else if e = '\\' then parse_string_loop n (acc ++ ['\\']) p2
          else if e = '/' then parse_string_loop n (acc ++ ['/']) p2
          else if e = 'b' then parse_string_loop n (acc ++ ['\x08']) p2
          else if e = 'f' then parse_string_loop n (acc ++ ['\x0C']) p2
          else if e = 'n' then parse_string_loop n (acc ++ ['\n']) p2
          else if e = 'r' then parse_string_loop n (acc ++ ['\r']) p2
          else if e = 't' then parse_string_loop n (acc ++ ['\t']) p2
          else if e = 'u' then
            match consume_hex 4 [] p2 with
            | (.error err, p3) => (.error err, p3)
            | (.ok hex, p3) =>
              let cp := hex_nat hex
              if 0xD800 ≤ cp ∧ cp ≤ 0xDFFF then
                (.error (.unexpectedToken p3.position), p3)
              else parse_string_loop n (acc ++ [Char.ofNat cp]) p3
          else (.error (.unexpectedToken p2.position), p2)
      else parse_string_loop n (acc ++ [c]) p1

/-- Rust `parse_string`.  The source returns `JsonValue::String(s)`; the
accumulated text is returned directly here, and the (only possible)
`String` constructor is applied at the call sites.  The leading
`self.consume(); // consume '"'` discards its result, exactly as the
source does. -/
def parse_string (p : Parser) : Except ParseError (List Char) × Parser :=
  parse_string_loop (p.input.length + 1) [] (consume p).2

/-- The maximal-alphabetic-run loop shared by Rust `parse_boolean` and
`parse_null`, with explicit fuel. -/
def alpha_run : Nat → List Char → Parser → List Char × Parser
  | 0, acc, p => (acc, p)
  | n + 1, acc, p =>
    match peek p with
    | some c =>
      if is_alphabetic c then alpha_run n (acc ++ [c]) (consume p).2 else (acc, p)
    | none => (acc, p)

/-- Rust `parse_boolean`. -/
def parse_boolean (p : Parser) : Except ParseError JsonValue × Parser :=
  let (s, p1) := alpha_run (p.input.length + 1) [] p
  if s = "true".toList then (.ok (.Boolean true), p1)
  else if s = "false".toList then (.ok (.Boolean false), p1)
  else (.error (.unexpectedToken p1.position), p1)

/-- Rust `parse_null`. -/
def parse_null (p : Parser) : Except ParseError JsonValue × Parser :=
  let (s, p1) := alpha_run (p.input.length + 1) [] p
  if s = "null".toList then (.ok .Null, p1)
  else (.error (.unexpectedToken p1.position), p1)

/-- The digit loop of Rust `parse_number`, with explicit fuel.  The state is
the accumulated token text `s` and the `is_float` flag.  Note the source
pushes `c` — the digit just consumed — where the decimal point, the
exponent marker and the exponent sign appear in the input; this embedding
reproduces that literally. -/
def parse_num_loop : Nat → List Char → Bool → Parser → Except ParseError (List Char × Bool) × Parser
  | 0, _, _, p => (.error .unexpectedEndOfInput, p)
  | n + 1, s, isF, p =>
    match peek p with
    | some c =>
      if c.isDigit then
        let p1 := (consume p).2
        let s1 := s ++ [c]
        match peek p1 with
        | some d =>
          if d = '.' then
            parse_num_loop n (s1 ++ [c]) true (consume p1).2
          else if d = 'e' ∨ d = 'E' then
            let p2 := (consume p1).2
            let s2 := s1 ++ [c]
            let (s3, p3) :=
              match peek p2 with
              | some '+' => (s2 ++ [c], (consume p2).2)
              | some '-' => (s2 ++ [c], (consume p2).2)
              | _ => (s2, p2)
            match peek p3 with
            | some d2 =>
              if d2.isDigit then parse_num_loop n s3 isF p3
              else (.error (.unexpectedToken p3.position), p3)
            | none => (.error .unexpectedEndOfInput, p3)
          else parse_num_loop n s1 isF p1
        | none => parse_num_loop n s1 isF p1
      else (.ok (s, isF), p)
    | none => (.ok (s, isF), p)

/-- Rust `parse_number`.  The final `s.parse::<f32>().unwrap()` is modelled
by storing the token text `s` in the `Number` constructor (see `JsonValue`). -/
def parse_number (p : Parser) : Except ParseError JsonValue × Parser :=
  let (s0, neg, p0) : List Char × Bool × Parser :=
    if peek p = some '-' then (['-'], true, (consume p).2) else ([], false, p)
  match parse_num_loop (p.input.length + 1) s0 false p0 with
  | (.error e, p1) => (.error e, p1)
  | (.ok (s, isF), p1) =>
    if neg ∧ s.length = 1 then (.error (.unexpectedToken p1.position), p1)
    else if ¬isF ∧ s.length > 1 ∧ (s.head? = some '0' ∨ s.take 2 = ['-', '0']) then
      (.error (.leadingZero p1.position), p1)
    else (.ok (.Number s), p1)

/-- Model of indexmap IndexMap insert, the order-preserving map used for
`JsonValue::Object` (a dependency of the source, modelled from its
documented semantics): inserting an existing key overwrites the value in
place without moving the entry; a new key is appended at the end. -/
def index_map_insert (o : List (List Char × JsonValue)) (k : List Char) (v : JsonValue) :
    List (List Char × JsonValue) :=
  if o.any (fun e => e.1 = k) then o.map (fun e => if e.1 = k then (e.1, v) else e)
  else o ++ [(k, v)]

mutual

/-- Rust `parse_value`.  `parse_string` returns the key text here (see its
doc comment), so the `JsonValue::String` wrapping happens at this call
site, matching the source's `parse_string` which always builds `String`. -/
def parse_value : Nat → Nat → Parser → Except ParseError JsonValue × Parser
  | 0, _, p => (.error .unexpectedEndOfInput, p)
  | fuel + 1, depth, p =>
    if MAX_DEPTH ≤ depth then (.error (.maxDepthExceeded p.position), p)
    else
      let p1 := skip_ws p
      match peek p1 with
      | none => (.error .unexpectedEndOfInput, p1)
      | some c =>
        if c = '{' then parse_object fuel depth p1
        else if c = '[' then parse_array fuel depth p1
        else if c = '"' then
          match parse_string p1 with
          | (.ok s, p2) => (.ok (.String s), p2)
          | (.error e, p2) => (.error e, p2)
        else if c = 't' ∨ c = 'f' then parse_boolean p1
        else if c = 'n' then parse_null p1
        else if c.isDigit ∨ c = '-' then parse_number p1
        else (.error (.unexpectedToken p1.position), p1)
termination_by structural fuel depth p => fuel

/-- Rust `parse_object`: the depth guard, the unconditional consume of `{`,
then the member loop. -/
def parse_object : Nat → Nat → Parser → Except ParseError JsonValue × Parser
  | 0, _, p => (.error .unexpectedEndOfInput, p)
  | fuel + 1, depth, p =>
    if MAX_DEPTH ≤ depth then (.error (.maxDepthExceeded p.position), p)
    else parse_object_loop fuel depth [] (consume p).2
termination_by structural fuel depth p => fuel

/-- The member loop of Rust `parse_object`, with explicit fuel.  Each
iteration consumes at least the member's characters before recursing, so
the canonical fuel never runs out. -/
def parse_object_loop : Nat → Nat → List (List Char × JsonValue) → Parser →
    Except ParseError JsonValue × Parser
  | 0, _, _, p => (.error .unexpectedEndOfInput, p)
  | fuel + 1, depth, object, p =>
    let p1 := skip_ws p
    if peek p1 = some '}' then (.ok (.Object object), (consume p1).2)
    else
      match parse_string p1 with
      | (.error e, p2) => (.error e, p2)
      | (.ok key, p2) =>
        let p3 := skip_ws p2
        if peek p3 = some ':' then
          let p4 := (consume p3).2
          match parse_value fuel (depth + 1) p4 with
          | (.error e, p5) => (.error e, p5)
          | (.ok value, p5) =>
            let object1 := index_map_insert object key value
            let p6 := skip_ws p5
            match consume p6 with
            | (some '}', p7) => (.ok (.Object object1), p7)
            | (some ',', p7) =>
              let p8 := skip_ws p7
              if peek p8 = some '}' then (.error (.trailingComma p8.position), p8)
              else parse_object_loop fuel depth object1 p8
            | (_, p7) => (.error .unexpectedEndOfInput, p7)
        else
          match peek p3 with
          | some _ => (.error (.unexpectedToken p3.position), p3)
          | none => (.error .unexpectedEndOfInput, p3)
termination_by structural fuel depth object p => fuel

/-- Rust `parse_array`: the depth guard, the unconditional consume of `[`,
then the element loop. -/
def parse_array : Nat → Nat → Parser → Except ParseError JsonValue × Parser
  | 0, _, p => (.error .unexpectedEndOfInput, p)
  | fuel + 1, depth, p =>
    if MAX_DEPTH ≤ depth then (.error (.maxDepthExceeded p.position), p)
    else parse_array_loop fuel depth [] (consume p).2
termination_by structural fuel depth p => fuel

/-- The element loop of Rust `parse_array`, with explicit fuel. -/
def parse_array_loop : Nat → Nat → List JsonValue → Parser →
    Except ParseError JsonValue × Parser
  | 0, _, _, p => (.error .unexpectedEndOfInput, p)
  | fuel + 1, depth, array, p =>
    let p1 := skip_ws p
    if peek p1 = some ']' then (.ok (.Array array), (consume p1).2)
    else
      match parse_value fuel (depth + 1) p1 with
      | (.error e, p2) => (.error e, p2)
      | (.ok v, p2) =>
        let array1 := array ++ [v]
        let p3 := skip_ws p2
        match consume p3 with
        | (some ']', p4) => (.ok (.Array array1), p4)
        | (some ',', p4) =>
          let p5 := skip_ws p4
          if peek p5 = some ']' then (.error (.trailingComma p5.position), p5)
          else parse_array_loop fuel depth array1 p5
        | (_, p4) => (.error .unexpectedEndOfInput, p4)
termination_by structural fuel depth array p => fuel

end

/-- The canonical fuel handed to the mutual block by the entry point: every
recursion step of the grammar follows at least one consumed character, and
the factor leaves ample margin for the value/object/loop call chains. -/
def parse_fuel (t : List Char) : Nat := 4 * (t.length + 1)

/-- The root dispatch of Rust `parse`: skip whitespace, then `{` starts an
object, `[` starts an array, end of input is `UnexpectedEndOfInput`, and
anything else is `UnexpectedToken` at the current position. -/
def root_dispatch (t : List Char) : Except ParseError JsonValue × Parser :=
  let p1 := skip_ws ⟨t, 0⟩
  match peek p1 with
  | some '{' => parse_object (parse_fuel t) 0 p1
  | some '[' => parse_array (parse_fuel t) 0 p1
  | none => (.error .unexpectedEndOfInput, p1)
  | some _ => (.error (.unexpectedToken p1.position), p1)

/-- Rust `parse`: root dispatch, then skip whitespace and require end of
input — note the source returns `UnexpectedToken` whenever any character
remains, even when the root dispatch itself already failed. -/
def parse (t : List Char) : Except ParseError JsonValue :=
  let r := root_dispatch t
  let p3 := skip_ws r.2
  match peek p3 with
  | some _ => .error (.unexpectedToken p3.position)
  | none => r.1

/-- Rust `String::pop`: drop the final character, no-op on the empty string. -/
def popc (l : List Char) : List Char := l.dropLast

mutual

/-- The source impl ToString for JsonValue, with Rust String as List Char.
`Number` renders its token text (standing for Rust's `f32::to_string`; no
number-rendering claim is decided here), `String` is quoted *without*
re-escaping, and arrays/objects join entries with `", "` and then pop the
final two characters — including the opening bracket when the container is
empty, exactly as the source's two unconditional `s.pop()` calls do. -/
def to_string : JsonValue → List Char
  | .Null => "null".toList
  | .Boolean b => if b then "true".toList else "false".toList
  | .Number s => s
  | .String s => '"' :: s ++ ['"']
  | .Array a => popc (popc ('[' :: arr_body a)) ++ [']']
  | .Object o => popc (popc ('{' :: obj_body o)) ++ ['}']

/-- The `for value in a.iter()` accumulation of the array branch. -/
def arr_body : List JsonValue → List Char
  | [] => []
  | v :: vs => to_string v ++ ',' :: ' ' :: arr_body vs

/-- The `for (key, value) in o.iter()` accumulation of the object branch:
`format!("\x7b\x7d: \x7b\x7d, ", key, value)` renders `"key": value, `. -/
def obj_body : List (List Char × JsonValue) → List Char
  | [] => []
  | (k, v) :: rest => '"' :: k ++ '"' :: ':' :: ' ' :: to_string v ++ ',' :: ' ' :: obj_body rest

end

/-- Characters yielded by calling `consume` repeatedly (at most `n` times). -/
def consume_run : Nat → Parser → List Char
  | 0, _ => []
  | n + 1, p =>
    match consume p with
    | (some c, p1) => c :: consume_run n p1
    | (none, _) => []

/-- Classifier: the parse result is a success. -/
def res_is_ok : Except ParseError JsonValue → Bool
  | .ok _ => true
  | .error _ => false

/-- Classifier: the parse result is a `LeadingZero` failure. -/
def res_is_leading_zero : Except ParseError JsonValue → Bool
  | .error (.leadingZero _) => true
  | _ => false

/-- Classifier: the parse result is a `TrailingComma` failure. -/
def res_is_trailing_comma : Except ParseError JsonValue → Bool
  | .error (.trailingComma _) => true
  | _ => false

/-- Classifier: the parse result is a `MaxDepthExceeded` failure. -/
def res_is_max_depth : Except ParseError JsonValue → Bool
  | .error (.maxDepthExceeded _) => true
  | _ => false

instance : Inhabited JsonValue := ⟨.Null⟩

/-- First value stored under key `k` (order-preserving lookup). -/
def find_value (o : List (List Char × JsonValue)) (k : List Char) : Option JsonValue :=
  (o.find? (fun e => e.1 = k)).map Prod.snd

/-- Arrays nested `n + 1` levels deep. -/
def nested_array : Nat → JsonValue
  | 0 => .Array []
  | n + 1 => .Array [nested_array n]

/-- The document consisting of `n` nested arrays. -/
def deep_brackets (n : Nat) : List Char := List.replicate n '[' ++ List.replicate n ']'

/-- Written from the spec's grammar, for comparison with `parse_number`
(refinement check): the fraction part `.` digit+ of a numeric literal,
captured literally, or `none` on a digitless fraction. -/
def spec_frac : List Char → Option (List Char × List Char)
  | '.' :: r =>
    match r.takeWhile Char.isDigit with
    | [] => none
    | ds => some ('.' :: ds, r.dropWhile Char.isDigit)
  | l => some ([], l)

/-- Written from the spec's grammar, for comparison with `parse_number`
(refinement check): the exponent part (`e`|`E`) (`+`|`-`)? digit+ of a
numeric literal, captured literally. -/
def spec_exp : List Char → Option (List Char × List Char)
  | c :: r =>
    if c = 'e' ∨ c = 'E' then
      let (sg, r1) : List Char × List Char :=
        match r with
        | '+' :: rr => (['+'], rr)
        | '-' :: rr => (['-'], rr)
        | _ => ([], r)
      match r1.takeWhile Char.isDigit with
      | [] => none
      | ds => some (c :: sg ++ ds, r1.dropWhile Char.isDigit)
    else some ([], c :: r)
  | [] => some ([], [])

/-- Written from the spec's grammar `-`? digit+ (`.` digit+)?
((`e`|`E`) (`+`|`-`)? digit+)?: the token text of the numeric literal at the
head of `l`, captured literally with the decimal point, exponent marker and
exponent sign, together with the rest of the input. -/
def spec_number_token (l : List Char) : Option (List Char × List Char) :=
  let (sign, l1) : List Char × List Char :=
    match l with
    | '-' :: r => (['-'], r)
    | _ => ([], l)
  match l1.takeWhile Char.isDigit with
  | [] => none
  | ds =>
    match spec_frac (l1.dropWhile Char.isDigit) with
    | none => none
    | some (fr, r2) =>
      match spec_exp r2 with
      | none => none
      | some (ex, r3) => some (sign ++ ds ++ fr ++ ex, r3)

lemma utf8Len_pos (c : Char) : 1 ≤ utf8Len c := by
  unfold utf8Len
  split
  · exact Nat.le_refl 1
  · split
    · omega
    · split <;> omega

lemma peek_some_lt {p : Parser} {c : Char} (h : peek p = some c) :
    p.position < p.input.length := by
  by_contra hc
  push_neg at hc
  unfold peek at h
  rw [List.get?_eq_none.mpr hc] at h
  cases h

lemma consume_input (p : Parser) : ((consume p).2).input = p.input := by
  unfold consume
  split <;> rfl

lemma consume_pos_gt {p : Parser} {c : Char} (h : peek p = some c) :
    p.position < ((consume p).2).position := by
  unfold consume
  rw [h]
  have := utf8Len_pos c
  simp
  omega

lemma skip_whitespace_not_ws :
    ∀ (n : Nat) (p : Parser) (c : Char), p.input.length - p.position < n →
      peek (skip_whitespace n p) = some c → is_whitespace c = false := by
  intro n
  induction n with
  | zero => intro p c h _; omega
  | succ m ih =>
    intro p c hlt hpeek
    cases hp : peek p with
    | none =>
      simp only [skip_whitespace, hp] at hpeek
      cases hpeek
    | some c0 =>
      cases hw : is_whitespace c0 with
      | false =>
        simp only [skip_whitespace, hp, hw, Bool.false_eq_true, if_false] at hpeek
        injection hpeek with hcc
        rw [← hcc]
        exact hw
      | true =>
        simp only [skip_whitespace, hp, hw, if_true] at hpeek
        refine ih (consume p).2 c ?_ hpeek
        have h1 := peek_some_lt hp
        have h2 := consume_pos_gt hp
        rw [consume_input]
        omega

lemma skip_ws_not_ws {p : Parser} {c : Char} (h : peek (skip_ws p) = some c) :
    is_whitespace c = false :=
  skip_whitespace_not_ws (p.input.length + 1) p c
    (by have := Nat.sub_le p.input.length p.position; omega) h

lemma skip_ws_stable {p : Parser} {c : Char} (h : peek p = some c)
    (hw : is_whitespace c = false) : skip_ws p = p := by
  unfold skip_ws
  simp [skip_whitespace, h, hw]

lemma map_fst_overwrite (o : List (List Char × JsonValue)) (k : List Char) (v : JsonValue) :
    (o.map (fun e => if e.1 = k then (e.1, v) else e)).map Prod.fst = o.map Prod.fst := by
  induction o with
  | nil => rfl
  | cons hd tl ih => by_cases h : hd.1 = k <;> simp [h, ih]

lemma find_value_overwrite (o : List (List Char × JsonValue)) (k : List Char) (v : JsonValue)
    (h : o.any (fun e => e.1 = k) = true) :
    find_value (o.map (fun e => if e.1 = k then (e.1, v) else e)) k = some v := by
  induction o with
  | nil => simp at h
  | cons hd tl ih =>
    by_cases hh : hd.1 = k
    · simp [find_value, List.find?, hh]
    · have h2 : tl.any (fun e => e.1 = k) = true := by
        simp only [List.any_cons, Bool.or_eq_true, decide_eq_true_eq] at h
        rcases h with h | h
        · exact absurd h hh
        · simpa using h
      simpa [find_value, List.find?, hh] using ih h2

lemma find_value_append_new (o : List (List Char × JsonValue)) (k : List Char) (v : JsonValue)
    (h : o.any (fun e => e.1 = k) = false) :
    find_value (o ++ [(k, v)]) k = some v := by
  induction o with
  | nil => simp [find_value, List.find?]
  | cons hd tl ih =>
    simp only [List.any_cons, Bool.or_eq_false_iff, decide_eq_false_iff_not] at h
    obtain ⟨h1, h2⟩ := h
    simpa [find_value, List.find?, h1] using ih (by simpa using h2)

/-- C1: the claim says `parse_number` captures the decimal point, exponent
marker and exponent sign literally into the token text, so the literal
`0.5` denotes the value 0.5 and `1e2` denotes 100.  The code instead pushes
the previously consumed digit in place of each of those characters: the
document `[0.5]` produces the number token `005` (the `f32` value 5.0) and
`[1e2]` produces `112`, while the spec grammar captures `0.5` and `1e2`. -/
theorem parse_number_token_drops_markers :
    parse ['[', '0', '.', '5', ']'] = .ok (.Array [.Number ['0', '0', '5']])
    ∧ parse ['[', '1', 'e', '2', ']'] = .ok (.Array [.Number ['1', '1', '2']])
    ∧ spec_number_token ['0', '.', '5'] = some (['0', '.', '5'], [])
    ∧ spec_number_token ['1', 'e', '2'] = some (['1', 'e', '2'], [])
    ∧ (['0', '0', '5'] : List Char) ≠ ['0', '.', '5']
    ∧ (['1', '1', '2'] : List Char) ≠ ['1', 'e', '2'] :=
  ⟨rfl, rfl, rfl, rfl, by decide, by decide⟩

/-- C2: the claim says `parse (serialize v)` succeeds with `v` for every
`Value` tree free of strings needing escaping.  The empty `Array` (which
contains no strings at all) refutes it: the serializer's two unconditional
pops delete the opening bracket, `to_string (Array []) = "]"`, and parsing
that fails with `UnexpectedToken` at position 0. -/
theorem serialize_empty_array_breaks_round_trip :
    to_string (.Array []) = [']']
    ∧ parse (to_string (.Array [])) = .error (.unexpectedToken 0)
    ∧ res_is_ok (parse (to_string (.Array []))) = false :=
  ⟨rfl, rfl, rfl⟩

/-- C3: the claim says `consume` returns exactly the character `peek`
returns and advances past exactly that one character, including for
multi-byte characters.  The code advances `position` by the UTF-8 byte
length while `peek` indexes by character count: consuming the two-byte
character é from éx moves the position to 2, `peek` then sees end of
input, and the x is never yielded; the document `["é"]` consequently fails
with `UnexpectedEndOfInput` instead of parsing. -/
theorem cursor_mixes_byte_and_char_units :
    consume ⟨['é', 'x'], 0⟩ = (some 'é', ⟨['é', 'x'], 2⟩)
    ∧ peek ⟨['é', 'x'], 2⟩ = none
    ∧ consume_run 2 ⟨['é', 'x'], 0⟩ = ['é']
    ∧ parse ['[', '"', 'é', '"', ']'] = .error .unexpectedEndOfInput :=
  ⟨rfl, rfl, rfl, rfl⟩

/-- C4: the claim says serializing the empty Object yields the two-character
bracket pair and likewise for the empty Array.  The code's unconditional
double pop removes the opening bracket instead, leaving only the closer. -/
theorem to_string_empty_containers_drop_bracket :
    to_string (.Object []) = ['}']
    ∧ to_string (.Array []) = [']']
    ∧ to_string (.Object []) ≠ ['{', '}']
    ∧ to_string (.Array []) ≠ ['[', ']'] :=
  ⟨rfl, rfl, by intro h; exact absurd h (by decide), by intro h; exact absurd h (by decide)⟩

/-- C5: the claim says both documents fail with `TrailingComma`.  The
array/object loops do construct `TrailingComma` at the closing bracket's
position, but the entry point re-checks for remaining input even when the
root parse failed, and the unconsumed closing bracket turns the result into
`UnexpectedToken` at that same position, so `parse` never reports
`TrailingComma` here. -/
theorem trailing_comma_masked_as_unexpected_token :
    parse ['[', '1', ',', '2', ',', ']'] = .error (.unexpectedToken 5)
    ∧ res_is_trailing_comma (parse ['[', '1', ',', '2', ',', ']']) = false
    ∧ parse_array (parse_fuel ['[', '1', ',', '2', ',', ']']) 0 ⟨['[', '1', ',', '2', ',', ']'], 0⟩
        = (.error (.trailingComma 5), ⟨['[', '1', ',', '2', ',', ']'], 5⟩)
    ∧ parse ['{', '"', 'a', '"', ':', '1', ',', '}'] = .error (.unexpectedToken 7)
    ∧ parse_object (parse_fuel ['{', '"', 'a', '"', ':', '1', ',', '}']) 0
          ⟨['{', '"', 'a', '"', ':', '1', ',', '}'], 0⟩
        = (.error (.trailingComma 7), ⟨['{', '"', 'a', '"', ':', '1', ',', '}'], 7⟩) :=
  ⟨rfl, rfl, rfl, rfl, rfl⟩

/-- C6: the claim says 20 nested containers parse and 21 fail with
`MaxDepthExceeded`.  The 20-deep document does parse, and `parse_value` at
depth 20 does fail with `MaxDepthExceeded` at position 20, but the entry
point's trailing-input re-check replaces that error with `UnexpectedToken`
at the same position because the 21st bracket is still unconsumed, so the
21-deep document reports `UnexpectedToken`, not `MaxDepthExceeded`. -/
theorem depth_guard_at_20_and_masked_at_21 :
    parse (deep_brackets 20) = .ok (nested_array 19)
    ∧ parse (deep_brackets 21) = .error (.unexpectedToken 20)
    ∧ res_is_max_depth (parse (deep_brackets 21)) = false
    ∧ parse_value 1 20 ⟨deep_brackets 21, 20⟩
        = (.error (.maxDepthExceeded 20), ⟨deep_brackets 21, 20⟩) :=
  ⟨rfl, rfl, rfl, rfl⟩

/-- C7 counterexample: the claim says `parse "01"` returns `LeadingZero` and
`parse "0"` succeeds.  The entry point only accepts an object or array as
the document root, so `parse "01"` returns `UnexpectedToken` at position 0
(not `LeadingZero`) and `parse "0"` fails rather than succeeding. -/
theorem top_level_number_rejected :
    parse ['0', '1'] = .error (.unexpectedToken 0)
    ∧ res_is_leading_zero (parse ['0', '1']) = false
    ∧ res_is_ok (parse ['0']) = false :=
  ⟨rfl, rfl, rfl⟩

/-- C7 amended: the leading-zero rule holds at the `parse_number` level —
`01`, `-01` and `00` fail with `LeadingZero` and `0` and `0.5` are accepted
— while the top-level `parse` rejects all five inputs with
`UnexpectedToken` at position 0, since a bare number cannot be a document
root. -/
theorem number_leading_zero_at_number_level :
    parse_number ⟨['0', '1'], 0⟩ = (.error (.leadingZero 2), ⟨['0', '1'], 2⟩)
    ∧ parse_number ⟨['-', '0', '1'], 0⟩ = (.error (.leadingZero 3), ⟨['-', '0', '1'], 3⟩)
    ∧ parse_number ⟨['0', '0'], 0⟩ = (.error (.leadingZero 2), ⟨['0', '0'], 2⟩)
    ∧ parse_number ⟨['0'], 0⟩ = (.ok (.Number ['0']), ⟨['0'], 1⟩)
    ∧ res_is_ok (parse_number ⟨['0', '.', '5'], 0⟩).1 = true
    ∧ parse ['0', '1'] = .error (.unexpectedToken 0)
    ∧ parse ['-', '0', '1'] = .error (.unexpectedToken 0)
    ∧ parse ['0', '0'] = .error (.unexpectedToken 0)
    ∧ parse ['0'] = .error (.unexpectedToken 0)
    ∧ parse ['0', '.', '5'] = .error (.unexpectedToken 0) :=
  ⟨rfl, rfl, rfl, rfl, rfl, rfl, rfl, rfl, rfl, rfl⟩

/-- C8: after skipping leading whitespace, a first significant character
other than an opening brace or bracket makes `parse` fail with
`UnexpectedToken` at that character's position; after the root dispatch,
any remaining non-whitespace character makes `parse` fail with
`UnexpectedToken` at its position, and when only whitespace remains the
root dispatch's result is returned unchanged — so `parse` succeeds exactly
when the root parse succeeds and the remainder is all whitespace. -/
theorem parse_requires_container_root_and_ws_tail :
    ∀ (t : List Char) (c : Char), peek (skip_ws ⟨t, 0⟩) = some c →
      ((c ≠ '{' ∧ c ≠ '[') →
        parse t = .error (.unexpectedToken (skip_ws (⟨t, 0⟩ : Parser)).position))
      ∧ (∀ d : Char, peek (skip_ws (root_dispatch t).2) = some d →
          parse t = .error (.unexpectedToken (skip_ws (root_dispatch t).2).position))
      ∧ (peek (skip_ws (root_dispatch t).2) = none → parse t = (root_dispatch t).1) := by
  intro t c hc
  refine ⟨?_, ?_, ?_⟩
  · rintro ⟨h1, h2⟩
    have hrd : root_dispatch t =
        (.error (.unexpectedToken (skip_ws (⟨t, 0⟩ : Parser)).position), skip_ws ⟨t, 0⟩) := by
      simp only [root_dispatch]
      rw [hc]
      split <;> simp_all
    have hstable : skip_ws (skip_ws (⟨t, 0⟩ : Parser)) = skip_ws ⟨t, 0⟩ :=
      skip_ws_stable hc (skip_ws_not_ws hc)
    simp only [parse, hrd, hstable, hc]
  · intro d hd
    simp only [parse, hd]
  · intro hn
    simp only [parse, hn]

/-- C8 witness: instantiating the theorem at the concrete inputs `x`
(non-container root) and `[] x` (trailing content after the root array). -/
theorem parse_requires_container_root_and_ws_tail_witness :
    parse ['x'] = .error (.unexpectedToken 0)
    ∧ parse ['[', ']', ' ', 'x'] = .error (.unexpectedToken 3) := by
  constructor
  · exact (parse_requires_container_root_and_ws_tail ['x'] 'x' rfl).1 (by decide)
  · exact (parse_requires_container_root_and_ws_tail ['[', ']', ' ', 'x'] '[' rfl).2.1 'x' rfl

/-- C9: the object insertion used by the parser preserves first-insertion
key order — inserting an existing key leaves the key sequence unchanged
(the entry keeps its position) while the stored value becomes the new one,
and a new key is appended at the end — and the document with the duplicate
key `a` parses to an object with the single key `a` bound to the number
token `2`. -/
theorem object_insert_preserves_first_insertion_order :
    (∀ (o : List (List Char × JsonValue)) (k : List Char) (v : JsonValue),
        (index_map_insert o k v).map Prod.fst =
          if o.any (fun e => e.1 = k) then o.map Prod.fst else o.map Prod.fst ++ [k])
    ∧ (∀ (o : List (List Char × JsonValue)) (k : List Char) (v : JsonValue),
        find_value (index_map_insert o k v) k = some v)
    ∧ parse ['{', '"', 'a', '"', ':', '1', ',', '"', 'a', '"', ':', '2', '}']
        = .ok (.Object [(['a'], .Number ['2'])]) := by
  refine ⟨?_, ?_, rfl⟩
  · intro o k v
    cases h : o.any (fun e => e.1 = k) with
    | true =>
      rw [index_map_insert, if_pos h, if_pos (rfl : true = true)]
      exact map_fst_overwrite o k v
    | false =>
      have h1 : ¬((o.any fun e => e.1 = k) = true) := by simp [h]
      rw [index_map_insert, if_neg h1, if_neg (by decide : ¬(false = true))]
      simp
  · intro o k v
    cases h : o.any (fun e => e.1 = k) with
    | true =>
      rw [index_map_insert, if_pos h]
      exact find_value_overwrite o k v h
    | false =>
      have h1 : ¬((o.any fun e => e.1 = k) = true) := by simp [h]
      rw [index_map_insert, if_neg h1]
      exact find_value_append_new o k v h

/-- C10: parsing the empty input returns `UnexpectedEndOfInput` — not a
success and not any other failure variant. -/
theorem parse_empty_input_unexpected_end :
    parse ([] : List Char) = .error .unexpectedEndOfInput := rfl

end JsonRs
